import Mathlib

/-!
Shallow embedding of the EWS transport client (Go package ews): the dispatch
client with its methods Do and Request, the constructor NewClient, and the
buffer pool helpers getBuffer / releaseBuffer.  Collaborating code that is
not part of the given source (the ewsxml envelope codec, the go-pogo errors
combinators, parts of net/http) is modelled explicitly; each such definition
says so in its doc comment.  Logging is a no-op-capable sink with no effect
on any call's result and is therefore not represented.
-/

namespace GoEws

/-- Protocol version string (alias of ewsxml.Version in the source). -/
abbrev Version := String

/-- Version constant Exchange2010 from the source. -/
def Exchange2010 : Version := "Exchange2010"

/-- Version constant Exchange2013_SP1 from the source. -/
def Exchange2013_SP1 : Version := "Exchange2013_SP1"

/-- Error kind constant RequestError from the source ("request error"). -/
def RequestError : String := "request error"

/-- Error kind constant UnmarshalError from the source ("unmarshal error"). -/
def UnmarshalError : String := "unmarshal error"

/-- Model of the Go error values this client produces: plain errors, the
go-pogo wrappers WithStack and WithKind, the RequestError value built by
NewError, and the multi error formed by errors.Append. -/
inductive GoError where
  | base (msg : String)
  | withStack (e : GoError)
  | withKind (kind : String) (e : GoError)
  | requestError (status : Nat) (body : List UInt8)
  | multi (a b : GoError)
deriving DecidableEq

/-- Kind carried by an error, looking through WithStack wrappers; the value
NewError builds carries kind RequestError. -/
def GoError.kindOf : GoError → Option String
  | .withKind k _ => some k
  | .withStack e => e.kindOf
  | .requestError _ _ => some RequestError
  | _ => none

/-- Model of go-pogo errors.Append(&dst, e): a nil incoming error leaves dst
unchanged; a non-nil error replaces a nil dst or joins an existing one into
a multi error. -/
def errAppend : Option GoError → Option GoError → Option GoError
  | none, e => e
  | some a, none => some a
  | some a, some b => some (.multi a b)

/-- Model of go-pogo errors.WithKind: nil stays nil, otherwise the kind is
attached. -/
def withKindOpt (k : String) : Option GoError → Option GoError
  | none => none
  | some e => some (.withKind k e)

/-- Modelled from the spec: the envelope header region carries the protocol
version plus optional extensions (ewsxml.Header itself is not part of the
given source). -/
structure Header where
  version : Version
  extensions : List String
deriving DecidableEq

/-- Modelled from the spec: ewsxml.Header.SetVersion stores the given
protocol version in the header and leaves everything else unchanged. -/
def Header.SetVersion (h : Header) (v : Version) : Header :=
  { h with version := v }

/-- Zero value of Header, as produced by new(ewsxml.Header). -/
def Header.zero : Header := { version := "", extensions := [] }

/-- Modelled from the spec: a serialized SOAP envelope consists of a header
region and a body region carrying the caller's payload.  The byte-level XML
text is not in the given source, so the envelope is kept symbolic. -/
structure Envelope where
  header : Header
  payload : List UInt8
deriving DecidableEq

/-- A bytes.Buffer, abstracted to the sequence of envelopes written into it;
the empty list is a buffer of length zero. -/
abbrev Buffer := List Envelope

/-- Buffer.Reset from bytes: the buffer is emptied to length zero. -/
def bufferReset (_ : Buffer) : Buffer := []

/-- The process-wide sync.Pool of buffers, abstracted to the list of
currently pooled buffers. -/
abbrev Pool := List Buffer

/-- getBuffer from the source: take a pooled buffer when one is available,
otherwise the pool's New function yields a fresh empty buffer. -/
def getBuffer (p : Pool) : Buffer × Pool := (p.headD [], p.tail)

/-- releaseBuffer from the source: reset the buffer to length zero and put
it back into the pool. -/
def releaseBuffer (b : Buffer) (p : Pool) : Pool := bufferReset b :: p

/-- The Request value passed to Do and Request: an optional header override,
a cancellation context (kept as an abstract identifier), and the outcome of
serializing the request's own payload. -/
structure Request where
  head : Option Header
  ctx : Nat
  body : Except GoError (List UInt8)

/-- Modelled from the spec: req.WriteBody(buf) serializes the request into
the envelope (header region plus body payload) and writes it to the buffer;
a serialization failure is returned as is. -/
def Request.WriteBody (req : Request) (buf : Buffer) : Except GoError Buffer :=
  match req.body with
  | .error e => .error e
  | .ok payload =>
      .ok (buf ++ [{ header := req.head.getD Header.zero, payload := payload }])

/-- The http.ErrUseLastResponse sentinel error of net/http. -/
def errUseLastResponse : GoError := .base "net/http: use last response"

/-- Outcome of the net/http redirect decision for one redirect response. -/
inductive RedirectOutcome where
  | follow
  | returnLast
  | failWith (e : GoError)
deriving DecidableEq

/-- Modelled from net/http documented semantics: when a redirect response is
received, CheckRedirect is consulted (given the number of requests already
made); a nil result follows the redirect with a new request, returning
ErrUseLastResponse makes the client hand the most recent response back to
the caller without issuing a follow-up request, and any other error fails
the call. -/
def redirectBehavior (policy : Nat → Option GoError) (via : Nat) : RedirectOutcome :=
  match policy via with
  | none => .follow
  | some e => if e = errUseLastResponse then .returnLast else .failWith e

/-- Static configuration of the embedded http.Client: the CheckRedirect
policy and the timeout in seconds. -/
structure HttpConf where
  checkRedirect : Nat → Option GoError
  timeoutSeconds : Nat

/-- The HTTP response as observed by client.Request: the status code, the
result of reading the body to the end, and the error (if any) produced by
closing the body. -/
structure HttpResponse where
  statusCode : Nat
  readAllResult : Except GoError (List UInt8)
  closeErr : Option GoError

/-- The outbound HTTP request handed to the transport by client.Do. -/
structure SentRequest where
  method : String
  url : String
  ctx : Nat
  contentType : Option String
  basicAuth : Option (String × String)
  body : Buffer
deriving DecidableEq

/-- Environment of one call: whether http.NewRequestWithContext fails, and
what the underlying HTTP round trip produces. -/
structure World where
  newReqErr : Option GoError
  httpResult : Except GoError HttpResponse

/-- The client struct from the source (the unused log field is dropped, see
the module comment). -/
structure client where
  http : HttpConf
  ver : Version
  url : String
  auth : String × String
  header : Header

/-- A construction-time option: it may mutate the client and may fail. -/
abbrev ClientOption := client → client × Option GoError

/-- The client value NewClient builds before applying any option: the
configured version and url, no credentials, a 10 second timeout, and a
CheckRedirect policy that always returns http.ErrUseLastResponse. -/
def initClient (url : String) (ver : Version) : client :=
  { http := { checkRedirect := fun _ => some errUseLastResponse, timeoutSeconds := 10 },
    ver := ver, url := url, auth := ("", ""), header := Header.zero }

/-- The option loop of NewClient: every option runs on the current client,
and its error is accumulated with errors.Append into the running error. -/
def newClientLoop : List ClientOption → client → Option GoError → client × Option GoError
  | [], c, err => (c, err)
  | opt :: rest, c, err =>
      let r := opt c
      newClientLoop rest r.1 (errAppend err r.2)

/-- NewClient from the source: build the initial client, run every option,
and return the (always present) client together with the accumulated option
error. -/
def NewClient (url : String) (ver : Version) (opts : List ClientOption) :
    client × Option GoError :=
  newClientLoop opts (initClient url ver) none

/-- Applying every option in order while ignoring their errors. -/
def applyOpts : List ClientOption → client → client
  | [], c => c
  | opt :: rest, c => applyOpts rest (opt c).1

/-- The errors produced by the options, in order, threading the evolving
client state. -/
def optErrList : List ClientOption → client → List GoError
  | [], _ => []
  | opt :: rest, c => (opt c).2.toList ++ optErrList rest (opt c).1

/-- Left fold of errors.Append over a list of errors. -/
def joinErrs (start : Option GoError) (l : List GoError) : Option GoError :=
  l.foldl (fun acc e => errAppend acc (some e)) start

/-- Result of client.Do: the returned response-or-error, the HTTP request
actually handed to the transport (none when Do failed before sending), the
buffer pool after the deferred releaseBuffer ran, and the request value
after Do mutated its header field. -/
structure DoOutcome where
  result : Except GoError HttpResponse
  sent : Option SentRequest
  pool : Pool
  reqAfter : Request

/-- client.Do from the source: synthesize a header when the request has
none, stamp the client's version on it, serialize the body into a pooled
buffer, build the POST carrying the request's context, set basic auth only
when the configured username is non-empty, set Content-Type to text/xml,
run the HTTP call, and release the buffer (deferred, hence on every return
path). -/
def client.Do (c : client) (req : Request) (w : World) (pool : Pool) : DoOutcome :=
  let head1 := (req.head.getD Header.zero).SetVersion c.ver
  let req1 : Request := { req with head := some head1 }
  let gp := getBuffer pool
  match req1.WriteBody gp.1 with
  | .error e =>
      { result := .error e, sent := none,
        pool := releaseBuffer gp.1 gp.2, reqAfter := req1 }
  | .ok buf1 =>
      match w.newReqErr with
      | some e =>
          { result := .error (.withStack e), sent := none,
            pool := releaseBuffer buf1 gp.2, reqAfter := req1 }
      | none =>
          { result := w.httpResult,
            sent := some { method := "POST", url := c.url, ctx := req.ctx,
                           contentType := some "text/xml",
                           basicAuth := if c.auth.1 = "" then none else some c.auth,
                           body := buf1 },
            pool := releaseBuffer buf1 gp.2, reqAfter := req1 }

/-- Modelled from the spec: the decoded outer envelope leaves the inner body
bytes unparsed (ewsxml.ResponseEnvelope's Body.Response field). -/
structure ResponseBody where
  Response : List UInt8
deriving DecidableEq

/-- The outer response envelope with its body region. -/
structure ResponseEnvelope where
  Body : ResponseBody
deriving DecidableEq

/-- The two xml.Unmarshal calls client.Request makes: the outer envelope
decode, and the inner payload decode used for non raw-byte targets (for the
claims only the inner decode's error matters). -/
structure Codec where
  outerUnmarshal : List UInt8 → Except GoError ResponseEnvelope
  innerUnmarshal : List UInt8 → Option GoError

/-- The dynamic type test client.Request performs on its out argument:
either a raw-byte receiver (a mutable byte slice) or any other target the
XML codec can decode into. -/
inductive OutTarget where
  | rawBytes
  | typed
deriving DecidableEq

/-- Modelled from the spec: NewError classifies a non-OK response as an
error of kind RequestError carrying the HTTP status and the raw response
body (NewError's own definition is not part of the given source). -/
def NewError (status : Nat) (body : List UInt8) : GoError :=
  .requestError status body

/-- Result of client.Request.  The field err is the value the caller
receives: the source function's result slot is unnamed, so it is fixed at
each return statement.  The field localErr is the value of the local
variable err after the deferred errors.AppendFunc(&err, resp.Body.Close)
ran; with an unnamed result slot that deferred write is not observable by
the caller.  outWritten records the bytes assigned to a raw-byte target
(none when the target was never written), and innerDecodeAttempted whether
the inner xml.Unmarshal into the caller's target ran. -/
structure RequestResult where
  err : Option GoError
  localErr : Option GoError
  outWritten : Option (List UInt8)
  innerDecodeAttempted : Bool
deriving DecidableEq

/-- client.Request from the source: run Do; on success arm the deferred
body-close append, read the body, log, check the status, decode the outer
envelope, then either hand the inner bytes to a raw-byte target or decode
them into the typed target.  At every return the returned value is computed
first and the deferred errors.AppendFunc then updates only the local err. -/
def client.Request (c : client) (req : Request) (out : OutTarget)
    (codec : Codec) (w : World) (pool : Pool) : RequestResult × Pool :=
  let dr := client.Do c req w pool
  match dr.result with
  | .error e =>
      ({ err := some e, localErr := some e,
         outWritten := none, innerDecodeAttempted := false }, dr.pool)
  | .ok resp =>
      let ret : Option GoError → Option GoError → Option (List UInt8) → Bool → RequestResult :=
        fun returned localAtReturn written attempted =>
          { err := returned,
            localErr := errAppend localAtReturn resp.closeErr,
            outWritten := written, innerDecodeAttempted := attempted }
      match resp.readAllResult with
      | .error re => (ret (some (.withStack re)) (some re) none false, dr.pool)
      | .ok data =>
          if resp.statusCode ≠ 200 then
            (ret (some (NewError resp.statusCode data)) none none false, dr.pool)
          else
            match codec.outerUnmarshal data with
            | .error ue =>
                (ret (some (.withKind UnmarshalError ue)) (some ue) none false, dr.pool)
            | .ok x =>
                match out with
                | .rawBytes =>
                    (ret none none (some x.Body.Response) false, dr.pool)
                | .typed =>
                    (ret (withKindOpt UnmarshalError (codec.innerUnmarshal x.Body.Response))
                         none none true, dr.pool)

/-- A concrete client as constructed for the scenario in the spec: the
example URL, version Exchange2013_SP1, no credentials. -/
def clientFix : client := initClient "https://example.com/EWS/Exchange.asmx" Exchange2013_SP1

/-- The same client with basic-auth credentials configured. -/
def clientAuth : client := { clientFix with auth := ("user", "secret") }

/-- A request with no caller-supplied header and a serializable payload. -/
def reqFix : Request := { head := none, ctx := 0, body := .ok [1, 2, 3] }

/-- A request whose caller already attached a header with its own version. -/
def reqHdr : Request :=
  { head := some { version := Exchange2010, extensions := ["ext"] }, ctx := 3, body := .ok [7] }

/-- A 200 response whose body reads fine and closes fine. -/
def respOk : HttpResponse := { statusCode := 200, readAllResult := .ok [60, 62], closeErr := none }

/-- World in which request construction and the HTTP round trip succeed. -/
def worldOk : World := { newReqErr := none, httpResult := .ok respOk }

/-- A 500 response with a readable body. -/
def resp500 : HttpResponse := { statusCode := 500, readAllResult := .ok [5, 5], closeErr := none }

/-- World producing the 500 response. -/
def world500 : World := { newReqErr := none, httpResult := .ok resp500 }

/-- A 200 response whose body reads fine but whose Close fails. -/
def respCloseFail : HttpResponse :=
  { statusCode := 200, readAllResult := .ok [60, 62], closeErr := some (.base "close failed") }

/-- World producing the close-failing 200 response. -/
def worldCloseFail : World := { newReqErr := none, httpResult := .ok respCloseFail }

/-- A decoded outer envelope with concrete inner bytes. -/
def envOk : ResponseEnvelope := { Body := { Response := [9, 8, 7] } }

/-- Codec for which both decodes succeed. -/
def codecOk : Codec := { outerUnmarshal := fun _ => .ok envOk, innerUnmarshal := fun _ => none }

/-- Codec whose outer envelope decode fails. -/
def codecBadOuter : Codec :=
  { outerUnmarshal := fun _ => .error (.base "bad outer xml"), innerUnmarshal := fun _ => none }

/-- Codec whose outer decode succeeds but whose inner decode fails. -/
def codecBadInner : Codec :=
  { outerUnmarshal := fun _ => .ok envOk, innerUnmarshal := fun _ => some (.base "bad inner xml") }

/-- The envelope clientFix sends for reqFix: synthesized header with the
configured version, reqFix's payload. -/
def envFix : Envelope :=
  { header := { version := Exchange2013_SP1, extensions := [] }, payload := [1, 2, 3] }

/-- The HTTP request clientFix (no credentials) sends for reqFix. -/
def sentNoAuthFix : SentRequest :=
  { method := "POST", url := "https://example.com/EWS/Exchange.asmx", ctx := 0,
    contentType := some "text/xml", basicAuth := none, body := [envFix] }

/-- The HTTP request clientAuth sends for reqFix. -/
def sentAuthFix : SentRequest :=
  { method := "POST", url := "https://example.com/EWS/Exchange.asmx", ctx := 0,
    contentType := some "text/xml", basicAuth := some ("user", "secret"),
    body := [envFix] }

/-- The envelope clientFix sends for reqHdr: the caller's extensions are
kept but the version has been overwritten. -/
def envHdrFix : Envelope :=
  { header := { version := Exchange2013_SP1, extensions := ["ext"] }, payload := [7] }

/-- The HTTP request clientFix sends for reqHdr. -/
def sentHdrFix : SentRequest :=
  { method := "POST", url := "https://example.com/EWS/Exchange.asmx", ctx := 3,
    contentType := some "text/xml", basicAuth := none, body := [envHdrFix] }

/-- An option that sets credentials and succeeds. -/
def optSetAuth : ClientOption := fun cl => ({ cl with auth := ("user", "secret") }, none)

/-- C1: the spec claims a failing response-body Close is accumulated onto
the error returned by client.Request.  The source's result slot is unnamed,
so the deferred errors.AppendFunc(&err, resp.Body.Close) only updates the
local err after the returned value has been fixed: at a 200 response that
decodes fine but whose Close fails, the caller receives nil while the local
err does hold the close failure.  The close error is dropped on every
return path. -/
theorem request_drops_body_close_error :
    (client.Request clientFix reqFix .typed codecOk worldCloseFail []).1.err = none ∧
    (client.Request clientFix reqFix .typed codecOk worldCloseFail []).1.localErr
      = some (GoError.base "close failed") := by
  constructor <;> rfl

/-- C6: on every return path of client.Do (body-serialization failure,
HTTP-request-construction failure, completed HTTP call) the pooled buffer
acquired at the start is reset to length zero and put back into the pool
before Do returns. -/
theorem do_releases_reset_buffer_on_every_path
    (c : client) (req : Request) (w : World) (pool : Pool) :
    (client.Do c req w pool).pool = bufferReset (getBuffer pool).1 :: (getBuffer pool).2 ∧
    (bufferReset (getBuffer pool).1).length = 0 := by
  obtain ⟨head, ctxv, body⟩ := req
  refine ⟨?_, rfl⟩
  rcases body with e | payload <;> rcases hn : w.newReqErr with _ | e2 <;>
    simp [client.Do, Request.WriteBody, hn, releaseBuffer, bufferReset, getBuffer]

/-- Helper: the HTTP request client.Do hands to the transport is either
absent (an early failure) or exactly the POST built from the client's
configuration and the stamped envelope. -/
theorem do_sent_cases (c : client) (req : Request) (w : World) (pool : Pool) :
    (client.Do c req w pool).sent = none ∨
    ∃ payload : List UInt8, req.body = .ok payload ∧ w.newReqErr = none ∧
      (client.Do c req w pool).sent
        = some { method := "POST", url := c.url, ctx := req.ctx,
                 contentType := some "text/xml",
                 basicAuth := if c.auth.1 = "" then none else some c.auth,
                 body := (getBuffer pool).1
                   ++ [{ header := (req.head.getD Header.zero).SetVersion c.ver,
                         payload := payload }] } := by
  rcases hb : req.body with er | payload <;> rcases hn : w.newReqErr with _ | e2 <;>
    simp [client.Do, Request.WriteBody, hb, hn]

/-- Helper: on every path client.Do leaves the request's header set to the
original header (or the zero header) stamped with the client's version. -/
theorem do_reqAfter_head (c : client) (req : Request) (w : World) (pool : Pool) :
    (client.Do c req w pool).reqAfter.head
      = some ((req.head.getD Header.zero).SetVersion c.ver) := by
  rcases hb : req.body with er | payload <;> rcases hn : w.newReqErr with _ | e2 <;>
    simp [client.Do, Request.WriteBody, hb, hn]

/-- C2: when the HTTP exchange succeeds with a status other than 200 OK,
client.Request returns the RequestError built by NewError from the status
and the raw body, and the caller's output target is neither written nor
decoded into. -/
theorem request_non_ok_returns_request_error
    (c : client) (req : Request) (out : OutTarget) (codec : Codec) (w : World)
    (pool : Pool) (resp : HttpResponse) (payload data : List UInt8)
    (hbody : req.body = .ok payload) (hnr : w.newReqErr = none)
    (hhttp : w.httpResult = .ok resp) (hread : resp.readAllResult = .ok data)
    (hstatus : resp.statusCode ≠ 200) :
    (client.Request c req out codec w pool).1.err = some (NewError resp.statusCode data) ∧
    (NewError resp.statusCode data).kindOf = some RequestError ∧
    (client.Request c req out codec w pool).1.outWritten = none ∧
    (client.Request c req out codec w pool).1.innerDecodeAttempted = false := by
  refine ⟨?_, rfl, ?_, ?_⟩ <;>
    simp [client.Request, client.Do, Request.WriteBody, hbody, hnr, hhttp, hread, hstatus]

/-- Witness for C2: the spec's scenario, a 500 response. -/
theorem request_non_ok_returns_request_error_witness :
    (client.Request clientFix reqFix .typed codecOk world500 []).1.err
        = some (NewError resp500.statusCode [5, 5]) ∧
    (NewError resp500.statusCode [5, 5]).kindOf = some RequestError ∧
    (client.Request clientFix reqFix .typed codecOk world500 []).1.outWritten = none ∧
    (client.Request clientFix reqFix .typed codecOk world500 []).1.innerDecodeAttempted = false :=
  request_non_ok_returns_request_error clientFix reqFix .typed codecOk world500 []
    resp500 [1, 2, 3] [5, 5] rfl rfl rfl rfl (by decide)

/-- C3: a request with a nil header gets one synthesized, and every envelope
in the body of the HTTP request actually sent carries exactly the client's
configured protocol version in its header. -/
theorem do_synthesizes_header_with_client_version
    (c : client) (req : Request) (w : World) (pool : Pool)
    (hhead : req.head = none) (hpool : (getBuffer pool).1 = []) :
    (client.Do c req w pool).reqAfter.head = some (Header.zero.SetVersion c.ver) ∧
    ∀ s : SentRequest, (client.Do c req w pool).sent = some s →
      ∀ e : Envelope, e ∈ s.body → e.header.version = c.ver := by
  constructor
  · rw [do_reqAfter_head, hhead]; rfl
  · intro s hs e he
    rcases do_sent_cases c req w pool with hnone | ⟨payload, hb, hn, hsent⟩
    · rw [hnone] at hs; cases hs
    · rw [hsent] at hs
      injection hs with hs'
      subst hs'
      rw [hpool] at he
      simp at he
      subst he
      simp [Header.SetVersion]

/-- Witness for C3: the no-header fixture request sent through the spec's
scenario client. -/
theorem do_synthesizes_header_with_client_version_witness :
    (client.Do clientFix reqFix worldOk []).reqAfter.head
        = some (Header.zero.SetVersion clientFix.ver) ∧
    envFix.header.version = clientFix.ver := by
  refine ⟨(do_synthesizes_header_with_client_version clientFix reqFix worldOk [] rfl rfl).1, ?_⟩
  exact (do_synthesizes_header_with_client_version clientFix reqFix worldOk [] rfl rfl).2
    sentNoAuthFix (by decide) envFix (by decide)

/-- C4: at a 200 response whose outer envelope decodes, a raw-byte output
target receives the inner body bytes verbatim, the inner decode is skipped,
and client.Request returns nil. -/
theorem request_raw_bytes_copies_inner_body
    (c : client) (req : Request) (codec : Codec) (w : World) (pool : Pool)
    (resp : HttpResponse) (payload data : List UInt8) (x : ResponseEnvelope)
    (hbody : req.body = .ok payload) (hnr : w.newReqErr = none)
    (hhttp : w.httpResult = .ok resp) (hread : resp.readAllResult = .ok data)
    (hstatus : resp.statusCode = 200) (houter : codec.outerUnmarshal data = .ok x) :
    (client.Request c req .rawBytes codec w pool).1.outWritten = some x.Body.Response ∧
    (client.Request c req .rawBytes codec w pool).1.innerDecodeAttempted = false ∧
    (client.Request c req .rawBytes codec w pool).1.err = none := by
  refine ⟨?_, ?_, ?_⟩ <;>
    simp [client.Request, client.Do, Request.WriteBody, hbody, hnr, hhttp, hread, hstatus, houter]

/-- Witness for C4: concrete 200 exchange with the successful codec. -/
theorem request_raw_bytes_copies_inner_body_witness :
    (client.Request clientFix reqFix .rawBytes codecOk worldOk []).1.outWritten
        = some envOk.Body.Response ∧
    (client.Request clientFix reqFix .rawBytes codecOk worldOk []).1.innerDecodeAttempted = false ∧
    (client.Request clientFix reqFix .rawBytes codecOk worldOk []).1.err = none :=
  request_raw_bytes_copies_inner_body clientFix reqFix codecOk worldOk [] respOk
    [1, 2, 3] [60, 62] envOk rfl rfl rfl rfl rfl rfl

/-- C5: at a 200 response, a failing outer envelope decode, or (for a
non raw-byte target) a failing inner decode, makes client.Request return an
UnmarshalError wrapping the decode error; when both decodes succeed it
returns nil. -/
theorem request_unmarshal_error_classification
    (c : client) (req : Request) (codec : Codec) (w : World) (pool : Pool)
    (resp : HttpResponse) (payload data : List UInt8)
    (hbody : req.body = .ok payload) (hnr : w.newReqErr = none)
    (hhttp : w.httpResult = .ok resp) (hread : resp.readAllResult = .ok data)
    (hstatus : resp.statusCode = 200) :
    (∀ out : OutTarget, ∀ ue : GoError, codec.outerUnmarshal data = .error ue →
        (client.Request c req out codec w pool).1.err
          = some (GoError.withKind UnmarshalError ue)) ∧
    (∀ x : ResponseEnvelope, ∀ ie : GoError, codec.outerUnmarshal data = .ok x →
        codec.innerUnmarshal x.Body.Response = some ie →
        (client.Request c req .typed codec w pool).1.err
          = some (GoError.withKind UnmarshalError ie)) ∧
    (∀ x : ResponseEnvelope, codec.outerUnmarshal data = .ok x →
        codec.innerUnmarshal x.Body.Response = none →
        (client.Request c req .typed codec w pool).1.err = none) := by
  refine ⟨?_, ?_, ?_⟩
  · intro out ue houter
    simp [client.Request, client.Do, Request.WriteBody, hbody, hnr, hhttp, hread, hstatus, houter]
  · intro x ie houter hinner
    simp [client.Request, client.Do, Request.WriteBody, hbody, hnr, hhttp, hread, hstatus,
      houter, hinner, withKindOpt]
  · intro x houter hinner
    simp [client.Request, client.Do, Request.WriteBody, hbody, hnr, hhttp, hread, hstatus,
      houter, hinner, withKindOpt]

/-- Witness for C5: a failing outer decode, a failing inner decode, and the
fully successful decode, each at a concrete 200 exchange. -/
theorem request_unmarshal_error_classification_witness :
    (client.Request clientFix reqFix .typed codecBadOuter worldOk []).1.err
        = some (GoError.withKind UnmarshalError (.base "bad outer xml")) ∧
    (client.Request clientFix reqFix .typed codecBadInner worldOk []).1.err
        = some (GoError.withKind UnmarshalError (.base "bad inner xml")) ∧
    (client.Request clientFix reqFix .typed codecOk worldOk []).1.err = none := by
  refine ⟨?_, ?_, ?_⟩
  · exact (request_unmarshal_error_classification clientFix reqFix codecBadOuter worldOk []
      respOk [1, 2, 3] [60, 62] rfl rfl rfl rfl rfl).1 .typed (.base "bad outer xml") rfl
  · exact (request_unmarshal_error_classification clientFix reqFix codecBadInner worldOk []
      respOk [1, 2, 3] [60, 62] rfl rfl rfl rfl rfl).2.1 envOk (.base "bad inner xml") rfl rfl
  · exact (request_unmarshal_error_classification clientFix reqFix codecOk worldOk []
      respOk [1, 2, 3] [60, 62] rfl rfl rfl rfl rfl).2.2 envOk rfl rfl

/-- C7: every HTTP request client.Do actually sends is a POST to the
configured URL with Content-Type text/xml, carries the request's context,
and carries basic authentication exactly when the configured username is
non-empty. -/
theorem do_sends_post_with_auth_iff_configured
    (c : client) (req : Request) (w : World) (pool : Pool) (s : SentRequest)
    (hsent : (client.Do c req w pool).sent = some s) :
    s.method = "POST" ∧ s.url = c.url ∧ s.contentType = some "text/xml" ∧
    s.ctx = req.ctx ∧
    (s.basicAuth = none ↔ c.auth.1 = "") ∧
    (c.auth.1 ≠ "" → s.basicAuth = some c.auth) := by
  rcases do_sent_cases c req w pool with hnone | ⟨payload, hb, hn, hs2⟩
  · rw [hnone] at hsent; cases hsent
  · rw [hs2] at hsent
    injection hsent with h
    subst h
    refine ⟨rfl, rfl, rfl, rfl, ?_, ?_⟩
    · by_cases ha : c.auth.1 = "" <;> simp [ha]
    · intro ha; simp [ha]

/-- Witness for C7: the credentialed client sends an authenticated POST. -/
theorem do_sends_post_with_auth_iff_configured_witness :
    sentAuthFix.method = "POST" ∧ sentAuthFix.url = clientAuth.url ∧
    sentAuthFix.contentType = some "text/xml" ∧ sentAuthFix.ctx = reqFix.ctx ∧
    (sentAuthFix.basicAuth = none ↔ clientAuth.auth.1 = "") ∧
    (clientAuth.auth.1 ≠ "" → sentAuthFix.basicAuth = some clientAuth.auth) :=
  do_sends_post_with_auth_iff_configured clientAuth reqFix worldOk [] sentAuthFix (by decide)

/-- C9: even when the caller supplied its own header, client.Do overwrites
the header's version with the client's configured version, so the envelope
on the wire always carries the client's version. -/
theorem do_overwrites_caller_header_version
    (c : client) (req : Request) (w : World) (pool : Pool) (h0 : Header)
    (hhead : req.head = some h0) (hpool : (getBuffer pool).1 = []) :
    (client.Do c req w pool).reqAfter.head = some (h0.SetVersion c.ver) ∧
    ∀ s : SentRequest, (client.Do c req w pool).sent = some s →
      ∀ e : Envelope, e ∈ s.body → e.header.version = c.ver := by
  constructor
  · rw [do_reqAfter_head, hhead]; rfl
  · intro s hs e he
    rcases do_sent_cases c req w pool with hnone | ⟨payload, hb, hn, hsent⟩
    · rw [hnone] at hs; cases hs
    · rw [hsent] at hs
      injection hs with hs'
      subst hs'
      rw [hpool] at he
      simp at he
      subst he
      simp [Header.SetVersion]

/-- Witness for C9: a caller header with version Exchange2010 is sent with
the client's Exchange2013_SP1 instead. -/
theorem do_overwrites_caller_header_version_witness :
    (client.Do clientFix reqHdr worldOk []).reqAfter.head
        = some (Header.SetVersion { version := Exchange2010, extensions := ["ext"] } clientFix.ver) ∧
    envHdrFix.header.version = clientFix.ver := by
  refine ⟨(do_overwrites_caller_header_version clientFix reqHdr worldOk []
      { version := Exchange2010, extensions := ["ext"] } rfl rfl).1, ?_⟩
  exact (do_overwrites_caller_header_version clientFix reqHdr worldOk []
      { version := Exchange2010, extensions := ["ext"] } rfl rfl).2 sentHdrFix (by decide)
      envHdrFix (by decide)

/-- Helper: appending a nil error changes nothing. -/
theorem errAppend_none (e : Option GoError) : errAppend e none = e := by
  cases e <;> rfl

/-- Helper: the NewClient option loop applies every option in order and
folds every option error onto the running error. -/
theorem newClientLoop_applies_and_joins (opts : List ClientOption) :
    ∀ (c : client) (err : Option GoError),
      newClientLoop opts c err = (applyOpts opts c, joinErrs err (optErrList opts c)) := by
  induction opts with
  | nil => intro c err; rfl
  | cons opt rest ih =>
      intro c err
      rcases h : (opt c).2 with _ | e
      · simp [newClientLoop, applyOpts, optErrList, joinErrs, h, ih, errAppend_none]
      · simp [newClientLoop, applyOpts, optErrList, joinErrs, h, ih]

/-- C10: NewClient always yields a client value; every option is applied in
order even after an earlier option failed, and the returned error is the
accumulation of all failing options' errors. -/
theorem new_client_applies_all_options_and_accumulates_errors
    (url : String) (ver : Version) (opts : List ClientOption) :
    NewClient url ver opts
      = (applyOpts opts (initClient url ver),
         joinErrs none (optErrList opts (initClient url ver))) :=
  newClientLoop_applies_and_joins opts (initClient url ver) none

/-- C8: a client constructed by NewClient (with options that do not replace
the redirect policy, as the configuration options are setters for
credentials, timeout and logger) never follows an HTTP redirect: its
CheckRedirect policy makes the HTTP client hand the last response back to
the caller instead of issuing a follow-up request. -/
theorem new_client_does_not_follow_redirects
    (url : String) (ver : Version) (opts : List ClientOption) (via : Nat)
    (hpres : ∀ opt ∈ opts, ∀ cl : client,
      ((opt cl).1).http.checkRedirect = cl.http.checkRedirect) :
    redirectBehavior ((NewClient url ver opts).1.http.checkRedirect) via
      = RedirectOutcome.returnLast := by
  have key : ∀ (l : List ClientOption),
      (∀ opt ∈ l, ∀ cl : client, ((opt cl).1).http.checkRedirect = cl.http.checkRedirect) →
      ∀ (c : client) (err : Option GoError),
        (newClientLoop l c err).1.http.checkRedirect = c.http.checkRedirect := by
    intro l
    induction l with
    | nil => intro _ c err; rfl
    | cons opt rest ih =>
        intro h c err
        have h2 : ∀ o ∈ rest, ∀ cl : client,
            ((o cl).1).http.checkRedirect = cl.http.checkRedirect := by
          intro o hm cl; exact h o (List.mem_cons_of_mem opt hm) cl
        calc (newClientLoop (opt :: rest) c err).1.http.checkRedirect
            = ((opt c).1).http.checkRedirect := by
              rw [show newClientLoop (opt :: rest) c err
                  = newClientLoop rest (opt c).1 (errAppend err (opt c).2) from rfl]
              exact ih h2 (opt c).1 (errAppend err (opt c).2)
          _ = c.http.checkRedirect := h opt (List.mem_cons_self opt rest) c
  rw [show (NewClient url ver opts).1.http.checkRedirect
      = (initClient url ver).http.checkRedirect from key opts hpres (initClient url ver) none]
  simp [initClient, redirectBehavior]

/-- Witness for C8: a client built with a credentials-setting option still
returns the last response at every redirect. -/
theorem new_client_does_not_follow_redirects_witness :
    redirectBehavior
      ((NewClient "https://example.com/EWS/Exchange.asmx" Exchange2013_SP1 [optSetAuth]).1.http.checkRedirect) 1
      = RedirectOutcome.returnLast :=
  new_client_does_not_follow_redirects "https://example.com/EWS/Exchange.asmx"
    Exchange2013_SP1 [optSetAuth] 1
    (by intro opt hm cl
        have h : opt = optSetAuth := by
          rcases List.mem_singleton.mp hm with h; exact h
        rw [h]; rfl)

end GoEws
